import Mathlib

/-!
Verification development for the kicaq board-to-sketch converter.

Shallow embedding of `src/kicaq/__init__.py`:
  * `Board.p`        — the coordinate mapper (`Board.p` in the source),
  * `convert_shape`  — the shape assembler (`Board.convert_shape`),
  * `bspline`        — the cubic-curve construction helper (`bspline`).

Board-native points carry integer coordinates (KiCad internal units);
mapped sketch coordinates are rationals (the source uses floats; the
arithmetic performed — subtraction, division by the fixed unit scale,
negation, min/max — is exact, so ℚ is a faithful carrier).
Fallible paths (the `NotImplementedError` raise, the `points[0]`
index on an empty polygon, the `assert` in `bspline`) are embedded
as `Except ConvErr`.
-/

/-- A board-native point (`pcbnew.wxPoint`): integer coordinates. -/
structure Pt where
  x : Int
  y : Int
deriving DecidableEq, Repr

/-- Componentwise subtraction of board points (`l - self.center`). -/
def Pt.sub (a b : Pt) : Pt := ⟨a.x - b.x, a.y - b.y⟩

/-- `pcbnew.Iu2Millimeter`: KiCad-6 internal units (nanometres) to millimetres. -/
def iu2mm (n : Int) : ℚ := (n : ℚ) / 1000000

/-- A mapped point in the sketch frame. -/
abbrev Q2 := ℚ × ℚ

namespace Board

/-- The coordinate mapper `Board.p`: translate by the stored origin
(`self.center`), convert to millimetres, flip the y axis. -/
def p (center : Pt) (l : Pt) : Q2 :=
  let rel := l.sub center
  (iu2mm rel.x, -iu2mm rel.y)

end Board

/-- A raw board shape (`pcbnew.PCB_SHAPE`), tagged by `GetShape()`.
`other` stands for any tag outside the six handled cases; the payload
is the numeric tag value bound by the wildcard `case s`. -/
inductive Shape where
  | arc (start mid stop : Pt)
  | segment (start stop : Pt)
  | circle (center : Pt) (radius : Int)
  | rect (start stop center : Pt)
  | bezier (start c1 c2 stop : Pt)
  | poly (verts : List Pt)
  | other (tag : Int)
deriving DecidableEq, Repr

/-- OPEN primitives: the branches that set `line = True`. -/
def isOpen : Shape → Bool
  | .arc .. => true
  | .segment .. => true
  | .bezier .. => true
  | _ => false

/-- FULL primitives: the branches that increment `full`. -/
def isFull : Shape → Bool
  | .circle .. => true
  | .rect .. => true
  | .poly _ => true
  | _ => false

/-- A shape whose tag is one of the six handled cases. -/
def isSupported : Shape → Bool
  | .other _ => false
  | _ => true

/-- Number of FULL primitives in a shape list (final value of `full`). -/
def countFull : List Shape → Nat
  | [] => 0
  | s :: rest => (if isFull s then 1 else 0) + countFull rest

/-- The errors `convert_shape` / `bspline` can raise:
`unsupported` is the `NotImplementedError` for an unhandled tag,
`indexOutOfRange` is the `IndexError` from `points[0]` on an empty
polygon, `assertionError` is the failed `assert` in `bspline`. -/
inductive ConvErr where
  | unsupported (tag : Int)
  | indexOutOfRange
  | assertionError
deriving DecidableEq, Repr

/-- The constructor arguments of the `Geom_BSplineCurve` built by
`bspline`: control points `pnts`, knot vector `knots`, multiplicities
`mults`, and the degree. -/
structure BSplineEdge where
  pnts : List Q2
  knots : List ℚ
  mults : List Nat
  degree : Nat
deriving DecidableEq, Repr

/-- `bspline(points)`: assert exactly four control points, then build a
degree-3 B-spline with knots 0 and 1, each of multiplicity 4. -/
def bspline (points : List Q2) : Except ConvErr BSplineEdge :=
  if points.length = 4 then
    .ok { pnts := points, knots := [0, 1], mults := [4, 4], degree := 3 }
  else
    .error .assertionError

/-- The sketch operations `convert_shape` performs on the cadquery
sketch, one per processed shape, recorded in input order. -/
inductive SkOp where
  | arcOp (a mid b : Q2)
  | segmentOp (a b : Q2)
  | circleOp (center : Q2) (radius : ℚ)
  | rectOp (center : Q2) (w h : ℚ)
  | edgeOp (e : BSplineEdge)
  | polygonOp (ring : List Q2)
deriving DecidableEq, Repr

/-- The loop state of `convert_shape`: the sketch built so far (as the
list of operations applied), the `line` flag and the `full` counter. -/
structure ConvState where
  ops : List SkOp
  line : Bool
  full : Nat
deriving DecidableEq, Repr

/-- `minmax = lambda *l: (min(l), max(l))` at two arguments. -/
def minmax (a b : Int) : Int × Int := (min a b, max a b)

/-- One iteration of the `for shape in shapes` loop: dispatch on the
shape tag, extend the sketch, update `line` / `full`. -/
def convertStep (center : Pt) (st : ConvState) : Shape → Except ConvErr ConvState
  | .arc a m b =>
      .ok { st with line := true,
                    ops := st.ops ++ [.arcOp (Board.p center a) (Board.p center m) (Board.p center b)] }
  | .segment a b =>
      .ok { st with line := true,
                    ops := st.ops ++ [.segmentOp (Board.p center a) (Board.p center b)] }
  | .circle c r =>
      .ok { st with full := st.full + 1,
                    ops := st.ops ++ [.circleOp (Board.p center c) (iu2mm r)] }
  | .rect a b c =>
      let xX := minmax a.x b.x
      let yY := minmax a.y b.y
      .ok { st with full := st.full + 1,
                    ops := st.ops ++ [.rectOp (Board.p center c) (iu2mm (xX.2 - xX.1)) (iu2mm (yY.2 - yY.1))] }
  | .bezier a c1 c2 b => do
      let e ← bspline ([a, c1, c2, b].map (Board.p center))
      .ok { st with line := true, ops := st.ops ++ [.edgeOp e] }
  | .poly verts =>
      match verts.map (Board.p center) with
      | [] => .error .indexOutOfRange
      | q :: qs =>
          .ok { st with full := st.full + 1,
                        ops := st.ops ++ [.polygonOp ((q :: qs) ++ [q])] }
  | .other t => .error (.unsupported t)

/-- The `for` loop of `convert_shape`, threading the state; an error in
any iteration aborts the whole run. -/
def convertFold (center : Pt) (st : ConvState) : List Shape → Except ConvErr ConvState
  | [] => .ok st
  | s :: rest => do convertFold center (← convertStep center st s) rest

/-- The result of `convert_shape`: the accumulated operations, whether
`sketch.assemble()` was applied (the `line` branch), the final counters,
and the two advisory warnings emitted before returning. -/
structure ConvResult where
  ops : List SkOp
  assembled : Bool
  line : Bool
  full : Nat
  warnAmbiguous : Bool
  warnMultiFull : Bool
deriving DecidableEq, Repr

/-- `Board.convert_shape`: run the loop from the empty sketch with
`line = False`, `full = 0`; then warn if both kinds were mixed, warn if
more than one FULL primitive occurred, and return the assembled chain
when `line` else the sketch as-is. -/
def convert_shape (center : Pt) (shapes : List Shape) : Except ConvErr ConvResult := do
  let st ← convertFold center ⟨[], false, 0⟩ shapes
  .ok { ops := st.ops,
        assembled := st.line,
        line := st.line,
        full := st.full,
        warnAmbiguous := decide (st.full > 0) && st.line,
        warnMultiFull := decide (st.full > 1) }

/-- Modelled from the spec: the geometry kernel's evaluation of the
curve built by `bspline` is not in this repository (`Geom_BSplineCurve`
is the external kernel); per the spec a single-span degree-3 curve with
boundary knots of multiplicity 4 is "a clamped non-rational Bezier
segment", i.e. it evaluates in Bernstein form on its four control
points. -/
def bezierPoint (e : BSplineEdge) (t : ℚ) : Q2 :=
  match e.pnts with
  | [p0, p1, p2, p3] =>
      ((1 - t) ^ 3 * p0.1 + 3 * (1 - t) ^ 2 * t * p1.1 + 3 * (1 - t) * t ^ 2 * p2.1 + t ^ 3 * p3.1,
       (1 - t) ^ 3 * p0.2 + 3 * (1 - t) ^ 2 * t * p1.2 + 3 * (1 - t) * t ^ 2 * p2.2 + t ^ 3 * p3.2)
  | _ => (0, 0)

/-- Componentwise difference of mapped points. -/
def qsub (a b : Q2) : Q2 := (a.1 - b.1, a.2 - b.2)

/-- Shapes on which the loop body always succeeds: a supported tag and,
for a polygon, a non-empty vertex list. -/
def stepTotal : Shape → Bool
  | .other _ => false
  | .poly [] => false
  | _ => true

/-- Discriminator for the unsupported-kind error. -/
def ConvErr.isUnsupported : ConvErr → Bool
  | .unsupported _ => true
  | _ => false

instance {ε α : Type} [DecidableEq ε] [DecidableEq α] : DecidableEq (Except ε α)
  | .ok a, .ok b =>
      if h : a = b then .isTrue (congrArg Except.ok h)
      else .isFalse (fun hc => h (Except.ok.inj hc))
  | .error a, .error b =>
      if h : a = b then .isTrue (congrArg Except.error h)
      else .isFalse (fun hc => h (Except.error.inj hc))
  | .ok _, .error _ => .isFalse (fun hc => Except.noConfusion hc)
  | .error _, .ok _ => .isFalse (fun hc => Except.noConfusion hc)

lemma convertStep_arc (c : Pt) (st : ConvState) (a m b : Pt) :
    convertStep c st (.arc a m b) =
      .ok { st with
            line := true,
            ops := st.ops ++ [.arcOp (Board.p c a) (Board.p c m) (Board.p c b)] } := rfl

lemma convertStep_segment (c : Pt) (st : ConvState) (a b : Pt) :
    convertStep c st (.segment a b) =
      .ok { st with
            line := true,
            ops := st.ops ++ [.segmentOp (Board.p c a) (Board.p c b)] } := rfl

lemma convertStep_circle (c : Pt) (st : ConvState) (ctr : Pt) (r : Int) :
    convertStep c st (.circle ctr r) =
      .ok { st with
            full := st.full + 1,
            ops := st.ops ++ [.circleOp (Board.p c ctr) (iu2mm r)] } := rfl

lemma convertStep_rect (c : Pt) (st : ConvState) (a b ctr : Pt) :
    convertStep c st (.rect a b ctr) =
      .ok { st with
            full := st.full + 1,
            ops := st.ops ++ [.rectOp (Board.p c ctr) (iu2mm (max a.x b.x - min a.x b.x)) (iu2mm (max a.y b.y - min a.y b.y))] } := rfl

lemma convertStep_bezier (c : Pt) (st : ConvState) (a c1 c2 b : Pt) :
    convertStep c st (.bezier a c1 c2 b) =
      .ok { st with
            line := true,
            ops := st.ops ++ [.edgeOp { pnts := [Board.p c a, Board.p c c1, Board.p c c2, Board.p c b], knots := [0, 1], mults := [4, 4], degree := 3 }] } := rfl

lemma convertStep_poly_nil (c : Pt) (st : ConvState) :
    convertStep c st (.poly []) = .error .indexOutOfRange := rfl

lemma convertStep_poly_cons (c : Pt) (st : ConvState) (v : Pt) (vs : List Pt) :
    convertStep c st (.poly (v :: vs)) =
      .ok { st with
            full := st.full + 1,
            ops := st.ops ++ [.polygonOp ((Board.p c v :: vs.map (Board.p c)) ++ [Board.p c v])] } := rfl

lemma convertStep_other (c : Pt) (st : ConvState) (t : Int) :
    convertStep c st (.other t) = .error (.unsupported t) := rfl

lemma convertStep_ok_flags {c : Pt} {st st' : ConvState} {s : Shape}
    (h : convertStep c st s = .ok st') :
    st'.line = (st.line || isOpen s) ∧ st'.full = st.full + (if isFull s then 1 else 0) := by
  cases s with
  | arc a m b =>
      rw [convertStep_arc] at h
      cases h
      simp [isOpen, isFull]
  | segment a b =>
      rw [convertStep_segment] at h
      cases h
      simp [isOpen, isFull]
  | circle ctr r =>
      rw [convertStep_circle] at h
      cases h
      simp [isOpen, isFull]
  | rect a b ctr =>
      rw [convertStep_rect] at h
      cases h
      simp [isOpen, isFull]
  | bezier a c1 c2 b =>
      rw [convertStep_bezier] at h
      cases h
      simp [isOpen, isFull]
  | poly verts =>
      cases verts with
      | nil => rw [convertStep_poly_nil] at h; exact absurd h (by simp)
      | cons v vs =>
          rw [convertStep_poly_cons] at h
          cases h
          simp [isOpen, isFull]
  | other t =>
      rw [convertStep_other] at h
      exact absurd h (by simp)

lemma convertFold_ok_flags {c : Pt} {shapes : List Shape} :
    ∀ {st st' : ConvState}, convertFold c st shapes = .ok st' →
      st'.line = (st.line || shapes.any isOpen) ∧ st'.full = st.full + countFull shapes := by
  induction shapes with
  | nil =>
      intro st st' h
      cases h
      simp [countFull]
  | cons s rest ih =>
      intro st st' h
      rw [convertFold] at h
      cases hstep : convertStep c st s with
      | error e =>
          rw [hstep] at h
          exact Except.noConfusion h
      | ok st1 =>
          rw [hstep] at h
          have h1 : convertFold c st1 rest = .ok st' := h
          obtain ⟨hl, hf⟩ := ih h1
          obtain ⟨hl1, hf1⟩ := convertStep_ok_flags hstep
          refine ⟨?_, ?_⟩
          · rw [hl, hl1]
            simp [Bool.or_assoc]
          · rw [hf, hf1, countFull]
            omega

lemma stepTotal_ok (c : Pt) (st : ConvState) {s : Shape} (h : stepTotal s = true) :
    ∃ st', convertStep c st s = .ok st' := by
  cases s with
  | arc a m b => exact ⟨_, convertStep_arc c st a m b⟩
  | segment a b => exact ⟨_, convertStep_segment c st a b⟩
  | circle ctr r => exact ⟨_, convertStep_circle c st ctr r⟩
  | rect a b ctr => exact ⟨_, convertStep_rect c st a b ctr⟩
  | bezier a c1 c2 b => exact ⟨_, convertStep_bezier c st a c1 c2 b⟩
  | poly verts =>
      cases verts with
      | nil => exact absurd h (by simp [stepTotal])
      | cons v vs => exact ⟨_, convertStep_poly_cons c st v vs⟩
  | other t => exact absurd h (by simp [stepTotal])

lemma convertFold_total {c : Pt} {pre : List Shape} (h : pre.all stepTotal = true) :
    ∀ st : ConvState, ∃ st', convertFold c st pre = .ok st' := by
  induction pre with
  | nil => intro st; exact ⟨st, rfl⟩
  | cons s rest ih =>
      intro st
      simp only [List.all_cons, Bool.and_eq_true] at h
      obtain ⟨st1, hst1⟩ := stepTotal_ok c st h.1
      obtain ⟨st', hst'⟩ := ih h.2 st1
      refine ⟨st', ?_⟩
      rw [convertFold, hst1]
      exact hst'

lemma convertFold_append (c : Pt) (l1 l2 : List Shape) :
    ∀ {st st1 : ConvState}, convertFold c st l1 = .ok st1 →
      convertFold c st (l1 ++ l2) = convertFold c st1 l2 := by
  induction l1 with
  | nil =>
      intro st st1 h
      cases h
      rfl
  | cons s rest ih =>
      intro st st1 h
      rw [convertFold] at h
      cases hstep : convertStep c st s with
      | error e => rw [hstep] at h; exact Except.noConfusion h
      | ok stm =>
          rw [hstep] at h
          have h1 : convertFold c stm rest = .ok st1 := h
          show convertFold c st (s :: (rest ++ l2)) = convertFold c st1 l2
          rw [convertFold, hstep]
          exact ih h1

lemma convertStep_supported_error {c : Pt} {st : ConvState} {s : Shape} {e : ConvErr}
    (hs : isSupported s = true) (h : convertStep c st s = .error e) :
    e = .indexOutOfRange := by
  cases s with
  | arc a m b => rw [convertStep_arc] at h; exact Except.noConfusion h
  | segment a b => rw [convertStep_segment] at h; exact Except.noConfusion h
  | circle ctr r => rw [convertStep_circle] at h; exact Except.noConfusion h
  | rect a b ctr => rw [convertStep_rect] at h; exact Except.noConfusion h
  | bezier a c1 c2 b => rw [convertStep_bezier] at h; exact Except.noConfusion h
  | poly verts =>
      cases verts with
      | nil =>
          rw [convertStep_poly_nil] at h
          cases h
          rfl
      | cons v vs => rw [convertStep_poly_cons] at h; exact Except.noConfusion h
  | other t => exact absurd hs (by simp [isSupported])

lemma convertFold_no_unsupported {c : Pt} {shapes : List Shape}
    (hsup : shapes.all isSupported = true) (t : Int) :
    ∀ st : ConvState, convertFold c st shapes ≠ .error (.unsupported t) := by
  induction shapes with
  | nil => intro st h; exact Except.noConfusion h
  | cons s rest ih =>
      intro st h
      simp only [List.all_cons, Bool.and_eq_true] at hsup
      rw [convertFold] at h
      cases hstep : convertStep c st s with
      | error e =>
          rw [hstep] at h
          have he : (Except.error e : Except ConvErr ConvState) = .error (.unsupported t) := h
          have : e = ConvErr.indexOutOfRange := convertStep_supported_error hsup.1 hstep
          rw [this] at he
          cases he
      | ok st1 =>
          rw [hstep] at h
          exact ih hsup.2 st1 h

/-- C2: the coordinate mapper `Board.p` returns exactly
`(iu2mm (l.x - o.x), -iu2mm (l.y - o.y))` for every board point `l` and
origin `o`, it maps the origin itself to `(0, 0)`, and (being a total
function of its two inputs) it has no error conditions. -/
theorem claim_C2_mapper_formula (o l : Pt) :
    Board.p o l = (iu2mm (l.x - o.x), -iu2mm (l.y - o.y)) ∧ Board.p o o = (0, 0) := by
  refine ⟨rfl, ?_⟩
  simp [Board.p, Pt.sub, iu2mm]

/-- C9: changing the reference origin only translates the mapped image:
componentwise differences of mapped points do not depend on the origin,
and re-mapping from a new origin equals mapping from the old origin and
then translating by the mapped offset of the new origin. -/
theorem claim_C9_origin_translation (o1 o2 a b : Pt) :
    qsub (Board.p o2 a) (Board.p o2 b) = qsub (Board.p o1 a) (Board.p o1 b) ∧
    Board.p o2 a = qsub (Board.p o1 a) (Board.p o1 o2) := by
  unfold qsub Board.p Pt.sub iu2mm
  constructor <;>
    · simp only [Prod.mk.injEq]
      constructor <;>
        · push_cast
          ring

/-- C8: a single-Circle input yields a sketch holding exactly one filled
circle of radius `iu2mm R` centered at the mapped center, not assembled
(`line = false`), with `full = 1` and neither warning set. -/
theorem claim_C8_single_circle (c ctr : Pt) (r : Int) :
    convert_shape c [.circle ctr r] =
      .ok { ops := [.circleOp (Board.p c ctr) (iu2mm r)],
            assembled := false,
            line := false,
            full := 1,
            warnAmbiguous := false,
            warnMultiFull := false } := rfl

/-- C10: a Polygon with an empty vertex list makes `convert_shape` fail
with the index-out-of-range error (from closing the ring via the first
vertex), an error distinct from the unsupported-shape error, even though
the polygon tag itself is supported. -/
theorem claim_C10_empty_polygon (c : Pt) :
    convert_shape c [.poly []] = .error .indexOutOfRange ∧
    isSupported (.poly []) = true ∧
    ConvErr.isUnsupported .indexOutOfRange = false := ⟨rfl, rfl, rfl⟩

/-- C5: `bspline` fails exactly when its control-point list does not
have length 4: it returns the assertion error iff the length differs
from 4, and succeeds iff the length is 4. -/
theorem claim_C5_bspline_length_check (points : List Q2) :
    (bspline points = .error .assertionError ↔ points.length ≠ 4) ∧
    ((∃ e, bspline points = .ok e) ↔ points.length = 4) := by
  unfold bspline
  by_cases h : points.length = 4 <;> simp [h]

/-- C4: on exactly four mapped control points, `bspline` builds a
degree-3 curve with knots 0 and 1, each of multiplicity 4, over those
four points in order, and (per the kernel's clamped-B-spline semantics)
the curve starts at the first point and ends at the fourth. -/
theorem claim_C4_bspline_structure (a b c d : Q2) :
    bspline [a, b, c, d] =
      .ok { pnts := [a, b, c, d], knots := [0, 1], mults := [4, 4], degree := 3 } ∧
    bezierPoint { pnts := [a, b, c, d], knots := [0, 1], mults := [4, 4], degree := 3 } 0 = a ∧
    bezierPoint { pnts := [a, b, c, d], knots := [0, 1], mults := [4, 4], degree := 3 } 1 = d := by
  refine ⟨rfl, ?_, ?_⟩ <;>
    · unfold bezierPoint
      norm_num

/-- C6: the Rect branch emits a filled rectangle whose width and height
are the coordinate extrema differences of the two corners (in mm),
centered at the mapped declared center; swapping the two corners, or
flipping them across the axes, emits the identical operation. -/
theorem claim_C6_rect_extrema (o : Pt) (st : ConvState) (a b ctr : Pt) :
    convertStep o st (.rect a b ctr) =
      .ok { st with
            full := st.full + 1,
            ops := st.ops ++ [.rectOp (Board.p o ctr) (iu2mm (max a.x b.x - min a.x b.x)) (iu2mm (max a.y b.y - min a.y b.y))] } ∧
    convertStep o st (.rect a b ctr) = convertStep o st (.rect b a ctr) ∧
    convertStep o st (.rect a b ctr) = convertStep o st (.rect ⟨a.x, b.y⟩ ⟨b.x, a.y⟩ ctr) := by
  refine ⟨convertStep_rect o st a b ctr, ?_, ?_⟩ <;>
    · simp [convertStep_rect, max_comm, min_comm]

/-- C1: when `convert_shape` returns a sketch, the chain-closing branch
(`sketch.assemble()`) was taken iff some OPEN primitive (arc, segment,
cubic curve) occurred in the input; otherwise the union of the FULL
primitives is returned as-is. FULL primitives never affect the branch. -/
theorem claim_C1_branch_by_open (c : Pt) (shapes : List Shape) (r : ConvResult)
    (h : convert_shape c shapes = .ok r) :
    r.assembled = shapes.any isOpen := by
  unfold convert_shape at h
  cases hfold : convertFold c ⟨[], false, 0⟩ shapes with
  | error e =>
      rw [hfold] at h
      exact Except.noConfusion h
  | ok st =>
      rw [hfold] at h
      have h2 : (Except.ok { ops := st.ops, assembled := st.line, line := st.line, full := st.full, warnAmbiguous := decide (st.full > 0) && st.line, warnMultiFull := decide (st.full > 1) } : Except ConvErr ConvResult) = .ok r := h
      cases h2
      obtain ⟨hl, _⟩ := convertFold_ok_flags hfold
      simpa using hl

theorem claim_C1_witness :
    convert_shape ⟨0, 0⟩ [Shape.segment ⟨0, 0⟩ ⟨0, 0⟩, Shape.circle ⟨0, 0⟩ 1] =
      .ok { ops := [SkOp.segmentOp (Board.p ⟨0, 0⟩ ⟨0, 0⟩) (Board.p ⟨0, 0⟩ ⟨0, 0⟩), SkOp.circleOp (Board.p ⟨0, 0⟩ ⟨0, 0⟩) (iu2mm 1)],
            assembled := true,
            line := true,
            full := 1,
            warnAmbiguous := true,
            warnMultiFull := false } ∧
    ConvResult.assembled
        { ops := [SkOp.segmentOp (Board.p ⟨0, 0⟩ ⟨0, 0⟩) (Board.p ⟨0, 0⟩ ⟨0, 0⟩), SkOp.circleOp (Board.p ⟨0, 0⟩ ⟨0, 0⟩) (iu2mm 1)],
          assembled := true,
          line := true,
          full := 1,
          warnAmbiguous := true,
          warnMultiFull := false } =
      List.any [Shape.segment ⟨0, 0⟩ ⟨0, 0⟩, Shape.circle ⟨0, 0⟩ 1] isOpen :=
  ⟨rfl, claim_C1_branch_by_open ⟨0, 0⟩ _ _ rfl⟩

/-- C7: when `convert_shape` returns a sketch, the ambiguous-geometry
warning was emitted iff at least one FULL primitive and at least one
OPEN primitive occurred, and the multiple-full-primitives warning was
emitted iff more than one FULL primitive occurred; both are recorded on
a result that is still returned. -/
theorem claim_C7_warnings (c : Pt) (shapes : List Shape) (r : ConvResult)
    (h : convert_shape c shapes = .ok r) :
    r.warnAmbiguous = (decide (countFull shapes > 0) && shapes.any isOpen) ∧
    r.warnMultiFull = decide (countFull shapes > 1) := by
  unfold convert_shape at h
  cases hfold : convertFold c ⟨[], false, 0⟩ shapes with
  | error e =>
      rw [hfold] at h
      exact Except.noConfusion h
  | ok st =>
      rw [hfold] at h
      have h2 : (Except.ok { ops := st.ops, assembled := st.line, line := st.line, full := st.full, warnAmbiguous := decide (st.full > 0) && st.line, warnMultiFull := decide (st.full > 1) } : Except ConvErr ConvResult) = .ok r := h
      cases h2
      obtain ⟨hl, hf⟩ := convertFold_ok_flags hfold
      constructor
      · show (decide (st.full > 0) && st.line) = _
        rw [hl, hf]
        simp
      · show decide (st.full > 1) = _
        rw [hf]
        simp

theorem claim_C7_witness :
    convert_shape ⟨0, 0⟩ [Shape.circle ⟨0, 0⟩ 1, Shape.circle ⟨0, 0⟩ 1, Shape.segment ⟨0, 0⟩ ⟨0, 0⟩] =
      .ok { ops := [SkOp.circleOp (Board.p ⟨0, 0⟩ ⟨0, 0⟩) (iu2mm 1), SkOp.circleOp (Board.p ⟨0, 0⟩ ⟨0, 0⟩) (iu2mm 1), SkOp.segmentOp (Board.p ⟨0, 0⟩ ⟨0, 0⟩) (Board.p ⟨0, 0⟩ ⟨0, 0⟩)],
            assembled := true,
            line := true,
            full := 2,
            warnAmbiguous := true,
            warnMultiFull := true } ∧
    (ConvResult.warnAmbiguous
        { ops := [SkOp.circleOp (Board.p ⟨0, 0⟩ ⟨0, 0⟩) (iu2mm 1), SkOp.circleOp (Board.p ⟨0, 0⟩ ⟨0, 0⟩) (iu2mm 1), SkOp.segmentOp (Board.p ⟨0, 0⟩ ⟨0, 0⟩) (Board.p ⟨0, 0⟩ ⟨0, 0⟩)],
          assembled := true,
          line := true,
          full := 2,
          warnAmbiguous := true,
          warnMultiFull := true } =
       (decide (countFull [Shape.circle ⟨0, 0⟩ 1, Shape.circle ⟨0, 0⟩ 1, Shape.segment ⟨0, 0⟩ ⟨0, 0⟩] > 0) &&
        List.any [Shape.circle ⟨0, 0⟩ 1, Shape.circle ⟨0, 0⟩ 1, Shape.segment ⟨0, 0⟩ ⟨0, 0⟩] isOpen) ∧
     ConvResult.warnMultiFull
        { ops := [SkOp.circleOp (Board.p ⟨0, 0⟩ ⟨0, 0⟩) (iu2mm 1), SkOp.circleOp (Board.p ⟨0, 0⟩ ⟨0, 0⟩) (iu2mm 1), SkOp.segmentOp (Board.p ⟨0, 0⟩ ⟨0, 0⟩) (Board.p ⟨0, 0⟩ ⟨0, 0⟩)],
          assembled := true,
          line := true,
          full := 2,
          warnAmbiguous := true,
          warnMultiFull := true } =
       decide (countFull [Shape.circle ⟨0, 0⟩ 1, Shape.circle ⟨0, 0⟩ 1, Shape.segment ⟨0, 0⟩ ⟨0, 0⟩] > 1)) :=
  ⟨rfl, claim_C7_warnings ⟨0, 0⟩ _ _ rfl⟩

/-- C3, counterexample to the claim as stated: this input contains a
shape with an unsupported tag, yet `convert_shape` fails at the earlier
empty polygon with the index-out-of-range error, which is not the
unsupported-shape error and does not identify the offending kind. -/
theorem claim_C3_counterexample :
    List.any [Shape.poly [], Shape.other 7] (fun s => !isSupported s) = true ∧
    convert_shape ⟨0, 0⟩ [Shape.poly [], Shape.other 7] = .error .indexOutOfRange ∧
    ConvErr.isUnsupported .indexOutOfRange = false := by decide

/-- C3, amended: provided every shape before the first unsupported one
processes successfully (supported tag and, for polygons, a non-empty
vertex list), `convert_shape` fails at the first unsupported shape with
the unsupported-kind error carrying that shape's tag and returns no
sketch; and on inputs whose tags are all supported the unsupported-kind
error is never raised. -/
theorem claim_C3_unsupported_abort (c : Pt) (pre : List Shape) (t : Int)
    (rest shapes2 : List Shape) (t2 : Int)
    (hpre : pre.all stepTotal = true) (hsup : shapes2.all isSupported = true) :
    convert_shape c (pre ++ Shape.other t :: rest) = .error (.unsupported t) ∧
    convert_shape c shapes2 ≠ .error (.unsupported t2) := by
  constructor
  · obtain ⟨st1, h1⟩ := convertFold_total hpre ⟨[], false, 0⟩
    unfold convert_shape
    rw [convertFold_append c pre (Shape.other t :: rest) h1]
    rfl
  · intro h
    unfold convert_shape at h
    cases hfold : convertFold c ⟨[], false, 0⟩ shapes2 with
    | error e =>
        rw [hfold] at h
        have he : (Except.error e : Except ConvErr ConvResult) = .error (.unsupported t2) := h
        cases he
        exact convertFold_no_unsupported hsup t2 ⟨[], false, 0⟩ hfold
    | ok st =>
        rw [hfold] at h
        exact Except.noConfusion h

theorem claim_C3_witness :
    List.all [Shape.segment ⟨0, 0⟩ ⟨0, 0⟩] stepTotal = true ∧
    List.all [Shape.circle ⟨0, 0⟩ 1] isSupported = true ∧
    (convert_shape ⟨0, 0⟩ ([Shape.segment ⟨0, 0⟩ ⟨0, 0⟩] ++ Shape.other 9 :: []) = .error (.unsupported 9) ∧
     convert_shape ⟨0, 0⟩ [Shape.circle ⟨0, 0⟩ 1] ≠ .error (.unsupported 9)) :=
  ⟨by decide, by decide,
   claim_C3_unsupported_abort ⟨0, 0⟩ [Shape.segment ⟨0, 0⟩ ⟨0, 0⟩] 9 [] [Shape.circle ⟨0, 0⟩ 1] 9 (by decide) (by decide)⟩
